import Mathlib

/-!
Verification of the webserv CGI test-harness scripts.

The repository contains four Python files:
  * www/cgi-bin/slow.py        - a CGI script that sleeps, for timeout tests
  * .test/8/cgi-bin8.2/status.py - a CGI script demonstrating the Status header
  * .test/8/cgi-bin8.2/test.py   - a CGI script echoing environment and POST body
  * .test/slow_client.py         - a slow-consumer test client

This file gives a shallow embedding of those scripts.  Python strings are
modelled as `String`/`List Char`; each `print(x)` becomes one element of a
`List String` of output lines (the actual byte stream appends a newline to
each element).  Fallible operations return `Option`/`Except`.
-/

set_option maxHeartbeats 1000000

namespace Webserv

/-! ### Python string primitives -/

/-- Helper for `pySplit`: returns the first field and the remaining fields. -/
def pySplitAux (sep : Char) : List Char → List Char × List (List Char)
  | [] => ([], [])
  | c :: cs =>
    let p := pySplitAux sep cs
    if c = sep then ([], p.1 :: p.2) else (c :: p.1, p.2)

/-- Python `s.split(sep)` for a one-character separator: always returns a
nonempty list of fields; `"".split(sep) = [""]`. -/
def pySplit (sep : Char) (cs : List Char) : List (List Char) :=
  ((pySplitAux sep cs).1) :: (pySplitAux sep cs).2

/-- Python `s.split(sep, 1)`: the part before the first occurrence of `sep`
and the part after it. -/
def pySplitOnce (sep : Char) (cs : List Char) : List Char × List Char :=
  (cs.takeWhile (fun c => c ≠ sep), (cs.dropWhile (fun c => c ≠ sep)).drop 1)

/-- The whitespace characters stripped by Python `int(str)`. -/
def isPyWS (c : Char) : Bool :=
  c = ' ' || c = '\t' || c = '\n' || c = '\r' || c = '\x0b' || c = '\x0c'

/-- Strip Python whitespace from both ends of a character list. -/
def stripWS (cs : List Char) : List Char :=
  ((cs.dropWhile isPyWS).reverse.dropWhile isPyWS).reverse

/-- After the first digit, Python `int` accepts digits with single
underscores strictly between digits. -/
def digitsTail : List Char → Bool
  | [] => true
  | [c] => c ≠ '_' && c.isDigit
  | c :: d :: cs =>
    if c = '_' then d.isDigit && digitsTail cs
    else c.isDigit && digitsTail (d :: cs)

/-- The digit part accepted by Python `int` (after optional sign):
nonempty, starting with a digit, underscores only between digits. -/
def digitsOk : List Char → Bool
  | [] => false
  | c :: cs => c.isDigit && digitsTail cs

/-- Numeric value of an accepted digit part (underscores ignored). -/
def digitsVal (cs : List Char) : Nat :=
  (cs.filter (fun c => c ≠ '_')).foldl (fun a c => 10 * a + (c.toNat - 48)) 0

/-- Digit-fold value of a character list (no underscore handling). -/
def rawVal (cs : List Char) : Nat :=
  cs.foldl (fun a c => 10 * a + (c.toNat - 48)) 0

/-- `pyInt` on an already-stripped argument: an optional sign followed by
an accepted digit part. -/
def pyIntCore : List Char → Option Int
  | [] => none
  | c :: rest =>
    if c = '+' then (if digitsOk rest then some (digitsVal rest : Nat) else none)
    else if c = '-' then (if digitsOk rest then some (-(digitsVal rest : Nat) : Int) else none)
    else (if digitsOk (c :: rest) then some (digitsVal (c :: rest) : Nat) else none)

/-- Python `int(str)`: strips whitespace, accepts an optional sign followed
by digits (with `_` separators); returns `none` where Python raises
`ValueError`. -/
def pyInt (cs0 : List Char) : Option Int :=
  pyIntCore (stripWS cs0)

/-! ### Python decimal rendering of integers (`str(n)` on `int`) -/

/-- Fuel-indexed digit accumulator: prepends the decimal digits of `n` to
`acc`.  Fuel `f` is adequate as soon as `n < 10 ^ f`. -/
def natDigitsAux : Nat → Nat → List Char → List Char
  | 0, _, acc => acc
  | f + 1, n, acc =>
    let acc2 := Char.ofNat (48 + n % 10) :: acc
    if n < 10 then acc2 else natDigitsAux f (n / 10) acc2

/-- Decimal digits of a natural number, most significant first. -/
def natDigits (n : Nat) : List Char :=
  natDigitsAux (n + 1) n []

/-- Python `str(n)` for a natural number. -/
def pyStrNat (n : Nat) : String :=
  (natDigits n).asString

/-- Python `str(i)` for an integer. -/
def pyStrInt (i : Int) : String :=
  if i < 0 then "-" ++ (natDigits i.natAbs).asString else (natDigits i.toNat).asString

/-! ### status.py -/

/-- `param.split('=')[1]`: the fields always contain `=`, so the index is
in range and the default is never used. -/
def fieldValue (p : List Char) : List Char :=
  (pySplit '=' p).getD 1 []

/-- The parameter-parsing loop of `status.py`: for each `&`-field, a field
starting with `code=` updates the status code via `int(param.split('=')[1])`
(`ValueError` ignored), an other field starting with `redirect=` stores
`param.split('=')[1]` as the redirect target. -/
def statusLoop : List (List Char) → Int → Option (List Char) → Int × Option (List Char)
  | [], code, redir => (code, redir)
  | p :: ps, code, redir =>
    if ("code=".data.isPrefixOf p) then
      match pyInt (fieldValue p) with
      | some n => statusLoop ps n redir
      | none => statusLoop ps code redir
    else if ("redirect=".data.isPrefixOf p) then
      statusLoop ps code (some (fieldValue p))
    else
      statusLoop ps code redir

/-- Status code and redirect target parsed by `status.py` from
`QUERY_STRING` (defaults: 200 and none). -/
def statusParsed (q : String) : Int × Option (List Char) :=
  statusLoop (pySplit '&' q.data) 200 none

/-- The `phrases` table of `status.py`. -/
def phrases (c : Int) : Option String :=
  if c = 200 then some "OK"
  else if c = 201 then some "Created"
  else if c = 204 then some "No Content"
  else if c = 301 then some "Moved Permanently"
  else if c = 302 then some "Found"
  else if c = 400 then some "Bad Request"
  else if c = 403 then some "Forbidden"
  else if c = 404 then some "Not Found"
  else if c = 500 then some "Internal Server Error"
  else none

/-- `phrases.get(status_code, "Unknown")`. -/
def statusPhrase (c : Int) : String :=
  (phrases c).getD "Unknown"

/-- A single quote character, as a string. -/
def sq : String := "\x27"

/-- Python truthiness of the stored redirect value: `None` and the empty
string are falsy. -/
def redirTruthy : Option (List Char) → Bool
  | none => false
  | some v => v ≠ []

/-- The lines printed by `status.py` (each line is one `print` argument;
the byte stream appends a newline to each). -/
def statusOutput (q : String) : List String :=
  let p := statusParsed q
  let code := p.1
  let phrase := statusPhrase code
  ["Status: " ++ pyStrInt code ++ " " ++ phrase ++ "\r"]
  ++ (if redirTruthy p.2 then ["Location: " ++ (p.2.getD []).asString ++ "\r"] else [])
  ++ ["Content-Type: text/html\r",
      "\r",
      "<!DOCTYPE html>",
      "<html>",
      "<head><title>" ++ pyStrInt code ++ " " ++ phrase ++ "</title></head>",
      "<body>",
      "<h1>" ++ pyStrInt code ++ " " ++ phrase ++ "</h1>",
      "<p>CGI script returned status code " ++ pyStrInt code ++ "</p>"]
  ++ (if redirTruthy p.2 then
        ["<p>Redirect to: <a href=" ++ sq ++ (p.2.getD []).asString ++ sq ++ ">"
          ++ (p.2.getD []).asString ++ "</a></p>"]
      else [])
  ++ ["</body>", "</html>"]

/-- The header block of `statusOutput`: the lines printed before the blank
line. -/
def statusHeaders (q : String) : List String :=
  let p := statusParsed q
  let code := p.1
  let phrase := statusPhrase code
  ["Status: " ++ pyStrInt code ++ " " ++ phrase ++ "\r"]
  ++ (if redirTruthy p.2 then ["Location: " ++ (p.2.getD []).asString ++ "\r"] else [])
  ++ ["Content-Type: text/html\r"]

/-- The body of `statusOutput`: the lines printed after the blank line. -/
def statusBody (q : String) : List String :=
  let p := statusParsed q
  let code := p.1
  let phrase := statusPhrase code
  ["<!DOCTYPE html>",
   "<html>",
   "<head><title>" ++ pyStrInt code ++ " " ++ phrase ++ "</title></head>",
   "<body>",
   "<h1>" ++ pyStrInt code ++ " " ++ phrase ++ "</h1>",
   "<p>CGI script returned status code " ++ pyStrInt code ++ "</p>"]
  ++ (if redirTruthy p.2 then
        ["<p>Redirect to: <a href=" ++ sq ++ (p.2.getD []).asString ++ sq ++ ">"
          ++ (p.2.getD []).asString ++ "</a></p>"]
      else [])
  ++ ["</body>", "</html>"]

/-! ### slow.py -/

/-- The parameter loop of `slow.py`: each `&`-field starting with `sleep=`
updates the sleep duration via `int(param.split('=')[1])`, ignoring
`ValueError`. -/
def slowLoop : List (List Char) → Int → Int
  | [], t => t
  | p :: ps, t =>
    if ("sleep=".data.isPrefixOf p) then
      match pyInt (fieldValue p) with
      | some v => slowLoop ps v
      | none => slowLoop ps t
    else
      slowLoop ps t

/-- Sleep duration chosen by `slow.py`: default 60; the query loop runs only
when `QUERY_STRING` is truthy (nonempty). -/
def sleepTimeOf (q : String) : Int :=
  if q = "" then 60 else slowLoop (pySplit '&' q.data) 60

/-- One observable event of a run of `slow.py`. -/
inductive SlowEvent where
  | sleep (t : Int)
  | out (line : String)
deriving DecidableEq

/-- Whether an event is the `time.sleep` call. -/
def SlowEvent.isSleep : SlowEvent → Bool
  | .sleep _ => true
  | .out _ => false

/-- The lines printed by `slow.py` after the sleep completes.
`time.sleep` raises `ValueError` on a negative duration, so nothing is
printed in that case. -/
def slowOutput (q : String) : List String :=
  if 0 ≤ sleepTimeOf q then
    ["Content-Type: text/plain\r",
     "\r",
     "Slept for " ++ pyStrInt (sleepTimeOf q) ++ " seconds",
     "This should not appear if timeout is working!"]
  else []

/-- The event trace of `slow.py`: the `time.sleep` call strictly precedes
every print statement. -/
def slowEvents (q : String) : List SlowEvent :=
  SlowEvent.sleep (sleepTimeOf q) :: (slowOutput q).map SlowEvent.out

/-! ### test.py -/

/-- A process environment: `os.environ.get`. -/
def pyGet (env : String → Option String) (k d : String) : String :=
  (env k).getD d

/-- The `cgi_vars` list of `test.py`. -/
def cgiVars : List String :=
  ["REQUEST_METHOD", "QUERY_STRING", "CONTENT_TYPE", "CONTENT_LENGTH",
   "SCRIPT_NAME", "SCRIPT_FILENAME", "PATH_INFO", "SERVER_PROTOCOL",
   "SERVER_NAME", "SERVER_PORT", "GATEWAY_INTERFACE", "HTTP_HOST",
   "HTTP_USER_AGENT"]

/-- One table row of the environment dump in `test.py`. -/
def envRow (env : String → Option String) (v : String) : String :=
  "<tr><td>" ++ v ++ "</td><td>" ++ pyGet env v "<not set>" ++ "</td></tr>"

/-- One table row of the query-string dump: `pair.split('=', 1)` when the
pair contains `=`, otherwise a no-value row. -/
def pairRow (p : List Char) : String :=
  if '=' ∈ p then
    "<tr><td>" ++ (pySplitOnce '=' p).1.asString ++ "</td><td>"
      ++ (pySplitOnce '=' p).2.asString ++ "</td></tr>"
  else
    "<tr><td>" ++ p.asString ++ "</td><td><em>no value</em></td></tr>"

/-- Step 4 of `test.py`: the query-string section (guarded by the truthiness
of `QUERY_STRING`). -/
def querySection (qs : String) : List String :=
  if qs = "" then
    ["<p><em>No query string provided</em></p>",
     "<p>Try: <code>?name=World&count=42</code></p>"]
  else
    ["<table border=" ++ sq ++ "1" ++ sq ++ ">",
     "<tr><th>Parameter</th><th>Value</th></tr>"]
    ++ (pySplit '&' qs.data).map pairRow
    ++ ["</table>"]

/-- The message of the `ValueError` raised by Python `int` on a bad literal
(faithful for arguments without quotes, backslashes or control characters). -/
def intErrMsg (s : String) : String :=
  "invalid literal for int() with base 10: " ++ sq ++ s ++ sq

/-- Step 5 of `test.py`: the POST-body section.  `stdin` models standard
input as either its available characters or a raised exception message.
`sys.stdin.read(length)` returns at most `length` characters (all of them
for a negative `length`); `int(content_length)` raising `ValueError`, or the
read raising, is caught and reported as an error paragraph. -/
def postSection (env : String → Option String) (stdin : Except String (List Char)) : List String :=
  let method := pyGet env "REQUEST_METHOD" "GET"
  let cl := pyGet env "CONTENT_LENGTH" ""
  if method = "POST" ∧ cl ≠ "" then
    match pyInt cl.data with
    | none => ["<p>Error reading body: " ++ intErrMsg cl ++ "</p>"]
    | some l =>
      match stdin with
      | .error e => ["<p>Error reading body: " ++ e ++ "</p>"]
      | .ok s =>
        let body := if l < 0 then s else s.take l.toNat
        ["<p>Received " ++ pyStrNat body.length ++ " bytes:</p>",
         "<pre>" ++ body.asString ++ "</pre>"]
  else
    ["<p><em>No POST body (GET request or no Content-Length)</em></p>"]

/-- The lines printed by `test.py` (headers, environment dump, query dump,
POST section, closing tags). -/
def testOutput (env : String → Option String) (stdin : Except String (List Char)) : List String :=
  ["Content-Type: text/html\r",
   "\r",
   "<!DOCTYPE html>",
   "<html>",
   "<head><title>CGI Test</title></head>",
   "<body>",
   "<h1>CGI Test Script - Python</h1>",
   "<p>If you see this, CGI execution is working!</p>",
   "<h2>Environment Variables</h2>",
   "<table border=" ++ sq ++ "1" ++ sq ++ ">",
   "<tr><th>Variable</th><th>Value</th></tr>"]
  ++ cgiVars.map (envRow env)
  ++ ["</table>", "<h2>Query String Parameters</h2>"]
  ++ querySection (pyGet env "QUERY_STRING" "")
  ++ ["<h2>POST Body</h2>"]
  ++ postSection env stdin
  ++ ["</body>", "</html>"]

/-! ### slow_client.py -/

/-- `s.recv(1024)`: the read size requested on every iteration. -/
def clientRecvSize : Nat := 1024

/-- `time.sleep(0.05)`: the fixed delay after each nonempty chunk, in
milliseconds. -/
def clientSleepMs : Nat := 50

/-- The read loop of `slow_client.py` over the sequence of chunks returned
by `recv`: accumulates `total_bytes` and the number of sleeps performed,
stopping at the first empty chunk (peer closed the connection). -/
def clientLoop : List (List Nat) → Nat → Nat → Nat × Nat
  | [], total, sleeps => (total, sleeps)
  | c :: cs, total, sleeps =>
    if c = [] then (total, sleeps)
    else clientLoop cs (total + c.length) (sleeps + 1)

/-- A full run of the client loop: final `total_bytes` and sleep count. -/
def clientRun (chunks : List (List Nat)) : Nat × Nat :=
  clientLoop chunks 0 0

/-! ### Timeout supervisor (not part of this excerpt) -/

/-- One supervised CGI execution: its wall-clock duration (seconds) and the
lines it prints on completion. -/
structure ScriptRun where
  duration : Int
  output : List String

/-- Terminal state of a supervised invocation. -/
inductive GatewayOutcome where
  | completed (output : List String)
  | timedOut
deriving DecidableEq

/-- Modelled from the spec: the Timeout Supervisor of section 4.3 is part of
the webserver, which is absent from this excerpt.  If the deadline elapses
before the process completes, the process is forcibly terminated and the
outcome is `timedOut`; otherwise the process output is returned.  The
returned flag records whether the child process is still running
afterwards: it never is. -/
def supervise (deadline : Int) (run : ScriptRun) : GatewayOutcome × Bool :=
  if deadline < run.duration then (.timedOut, false) else (.completed run.output, false)

/-- Modelled from the spec: the Status extraction of the CGI Response
Parser (section 4.2), which is part of the absent webserver.  A header line
named `Status` has its value read as `<code> <optional phrase>`; without
one the default code is 200. -/
def cgiStatusOf (lines : List String) : Int :=
  match (lines.takeWhile (fun l => ¬(l = "" ∨ l = "\r"))).filter
      (fun l => "Status:".data.isPrefixOf l.data) with
  | [] => 200
  | l :: _ => (pyInt ((pySplit ' ' (l.data.drop 7)).getD 1 [])).getD 200

/-- Modelled from the spec: the caller substitutes a Gateway Timeout
response (status 504, no body) for a timed-out invocation, and forwards a
completed invocation's parsed output. -/
def callerResponse : GatewayOutcome → Int × List String
  | .timedOut => (504, [])
  | .completed o => (cgiStatusOf o, o)

/-- A run of `slow.py` under the supervisor: it sleeps for its configured
duration and prints only afterwards. -/
def slowRun (q : String) : ScriptRun :=
  ⟨sleepTimeOf q, slowOutput q⟩

/-- The lines `slow.py` has printed by time `t` (seconds from spawn):
nothing before the sleep completes. -/
def slowOutputBefore (q : String) (t : Int) : List String :=
  if sleepTimeOf q ≤ t then slowOutput q else []

/-! ### CGI output framing -/

/-- A string free of carriage returns and newlines (any HTTP query string
is, since the request line cannot contain control characters). -/
def noCRLF (s : String) : Prop :=
  ∀ c ∈ s.data, c ≠ '\r' ∧ c ≠ '\n'

/-- A CGI header line as printed by the scripts: `Name: value` followed by
a carriage return (the trailing newline is added by `print`), with a
nonempty colon-free name and no stray line breaks inside. -/
def isHeaderLine (l : String) : Prop :=
  ∃ nm v : String, l = nm ++ ": " ++ v ++ "\r" ∧ nm ≠ ""
    ∧ (∀ c ∈ nm.data, c ≠ ':' ∧ c ≠ '\r' ∧ c ≠ '\n')
    ∧ (∀ c ∈ v.data, c ≠ '\r' ∧ c ≠ '\n')

/-! ### Sanity checks on concrete inputs -/

example : pyStrNat 0 = "0" := by decide

example : pyStrNat 404 = "404" := by decide

example : pyStrInt (-13) = "-13" := by decide

example : pyInt " 302 ".data = some 302 := by decide

example : pyInt "1_0".data = some 10 := by decide

example : pyInt "".data = none := by decide

example : pyInt "1__0".data = none := by decide

example : pyInt "-42".data = some (-42) := by decide

example : pySplit '&' "a&&bc".data = [['a'], [], ['b', 'c']] := by decide

example : pySplit '&' "".data = [[]] := by decide

example : pySplitOnce '=' "a=b=c".data = (['a'], ['b', '=', 'c']) := by decide

example : sleepTimeOf "sleep=5" = 5 := by decide

example : sleepTimeOf "" = 60 := by decide

example : sleepTimeOf "sleep=abc" = 60 := by decide

example : (statusParsed "code=404").1 = 404 := by decide

example : (statusOutput "code=404").headD "" = "Status: 404 Not Found\r" := by decide

example : clientRun [[7, 7], [9], []] = (3, 2) := by decide

example : supervise 2 (slowRun "sleep=5") = (.timedOut, false) := by decide

example : postSection (fun _ => none) (.ok []) =
    ["<p><em>No POST body (GET request or no Content-Length)</em></p>"] := by decide

/-! ### Lemmas about `pySplit` -/

theorem pySplitAux_of_not_mem (sep : Char) (cs : List Char) (h : sep ∉ cs) :
    pySplitAux sep cs = (cs, []) := by
  induction cs with
  | nil => rfl
  | cons c cs ih =>
    have hc : c ≠ sep := fun hc => h (hc ▸ List.mem_cons_self c cs)
    have hcs : sep ∉ cs := fun hm => h (List.mem_cons_of_mem c hm)
    simp [pySplitAux, ih hcs, hc]

theorem pySplit_of_not_mem (sep : Char) (cs : List Char) (h : sep ∉ cs) :
    pySplit sep cs = [cs] := by
  simp [pySplit, pySplitAux_of_not_mem sep cs h]

theorem pySplitAux_append_sep (sep : Char) (xs ys : List Char) (h : sep ∉ xs) :
    pySplitAux sep (xs ++ sep :: ys) =
      (xs, (pySplitAux sep ys).1 :: (pySplitAux sep ys).2) := by
  induction xs with
  | nil => simp [pySplitAux]
  | cons x xs ih =>
    have hx : x ≠ sep := fun hx => h (hx ▸ List.mem_cons_self x xs)
    have hxs : sep ∉ xs := fun hm => h (List.mem_cons_of_mem x hm)
    simp [pySplitAux, ih hxs, hx]

theorem pySplit_append_sep (sep : Char) (xs ys : List Char) (h : sep ∉ xs) :
    pySplit sep (xs ++ sep :: ys) = xs :: pySplit sep ys := by
  simp [pySplit, pySplitAux_append_sep sep xs ys h]

theorem pySplitAux_subset (sep : Char) (cs : List Char) :
    (∀ c ∈ (pySplitAux sep cs).1, c ∈ cs) ∧
      (∀ p ∈ (pySplitAux sep cs).2, ∀ c ∈ p, c ∈ cs) := by
  induction cs with
  | nil => simp [pySplitAux]
  | cons x cs ih =>
    by_cases hx : x = sep
    · refine ⟨by simp [pySplitAux, hx], ?_⟩
      intro p hp c hc
      simp only [pySplitAux, hx, if_pos rfl] at hp
      rcases List.mem_cons.mp hp with h1 | h1
      · subst h1
        exact List.mem_cons_of_mem _ (ih.1 c hc)
      · exact List.mem_cons_of_mem _ (ih.2 p h1 c hc)
    · constructor
      · intro c hc
        simp only [pySplitAux, if_neg hx] at hc
        rcases List.mem_cons.mp hc with h1 | h1

        · exact h1 ▸ List.mem_cons_self x cs
        · exact List.mem_cons_of_mem _ (ih.1 c h1)
      · intro p hp c hc
        simp only [pySplitAux, if_neg hx] at hp
        exact List.mem_cons_of_mem _ (ih.2 p hp c hc)

theorem pySplit_subset (sep : Char) (cs : List Char) :
    ∀ p ∈ pySplit sep cs, ∀ c ∈ p, c ∈ cs := by
  intro p hp c hc
  rcases List.mem_cons.mp hp with h1 | h1
  · exact (pySplitAux_subset sep cs).1 c (h1 ▸ hc)
  · exact (pySplitAux_subset sep cs).2 p h1 c hc

theorem getD_subset {α : Type} (ll : List (List α)) (i : Nat) :
    ∀ c ∈ ll.getD i [], ∃ p ∈ ll, c ∈ p := by
  intro c hc
  by_cases h : i < ll.length
  · rw [List.getD_eq_getElem ll [] h] at hc
    exact ⟨ll[i], List.getElem_mem h, hc⟩
  · rw [List.getD_eq_default ll [] (le_of_not_lt h)] at hc
    exact absurd hc (List.not_mem_nil c)

/-! ### Lemmas about `natDigits` and `pyInt` -/

theorem natDigitsAux_succ (f n : Nat) (acc : List Char) :
    natDigitsAux (f + 1) n acc =
      if n < 10 then Char.ofNat (48 + n % 10) :: acc
      else natDigitsAux f (n / 10) (Char.ofNat (48 + n % 10) :: acc) := rfl

theorem natDigitsAux_fuel (n : Nat) : ∀ f g acc, n < 10 ^ (f + 1) → n < 10 ^ (g + 1) →
    natDigitsAux (f + 1) n acc = natDigitsAux (g + 1) n acc := by
  induction n using Nat.strong_induction_on with
  | _ n ih =>
    intro f g acc hf hg
    by_cases h : n < 10
    · simp [natDigitsAux, h]
    · obtain ⟨f1, rfl⟩ : ∃ f1, f = f1 + 1 := by
        cases f with
        | zero => exact absurd hf (by simpa using h)
        | succ f1 => exact ⟨f1, rfl⟩
      obtain ⟨g1, rfl⟩ : ∃ g1, g = g1 + 1 := by
        cases g with
        | zero => exact absurd hg (by simpa using h)
        | succ g1 => exact ⟨g1, rfl⟩
      rw [natDigitsAux_succ (f1 + 1) n acc, natDigitsAux_succ (g1 + 1) n acc,
        if_neg h, if_neg h]
      have hdiv : n / 10 < n := Nat.div_lt_self (by omega) (by omega)
      have hfd : n / 10 < 10 ^ (f1 + 1) := by
        rw [Nat.div_lt_iff_lt_mul (by omega)]
        calc n < 10 ^ (f1 + 1 + 1) := hf
        _ = 10 ^ (f1 + 1) * 10 := by ring
      have hgd : n / 10 < 10 ^ (g1 + 1) := by
        rw [Nat.div_lt_iff_lt_mul (by omega)]
        calc n < 10 ^ (g1 + 1 + 1) := hg
        _ = 10 ^ (g1 + 1) * 10 := by ring
      exact ih (n / 10) hdiv f1 g1 _ hfd hgd

theorem adequate_fuel (n : Nat) : n < 10 ^ (n + 1) :=
  lt_of_lt_of_le (Nat.lt_pow_self (by norm_num) n)
    (Nat.pow_le_pow_right (by norm_num) (Nat.le_succ n))

theorem natDigits_eq_aux (n f : Nat) (h : n < 10 ^ (f + 1)) :
    natDigits n = natDigitsAux (f + 1) n [] :=
  natDigitsAux_fuel n n f [] (adequate_fuel n) h

theorem natDigitsAux_acc (n : Nat) : ∀ f acc, n < 10 ^ (f + 1) →
    natDigitsAux (f + 1) n acc = natDigitsAux (f + 1) n [] ++ acc := by
  induction n using Nat.strong_induction_on with
  | _ n ih =>
    intro f acc h
    by_cases h10 : n < 10
    · simp [natDigitsAux, h10]
    · obtain ⟨f1, rfl⟩ : ∃ f1, f = f1 + 1 := by
        cases f with
        | zero => exact absurd h (by simpa using h10)
        | succ f1 => exact ⟨f1, rfl⟩
      rw [natDigitsAux_succ (f1 + 1) n acc, natDigitsAux_succ (f1 + 1) n [],
        if_neg h10, if_neg h10]
      have hdiv : n / 10 < n := Nat.div_lt_self (by omega) (by omega)
      have hfd : n / 10 < 10 ^ (f1 + 1) := by
        rw [Nat.div_lt_iff_lt_mul (by omega)]
        calc n < 10 ^ (f1 + 1 + 1) := h
        _ = 10 ^ (f1 + 1) * 10 := by ring
      rw [ih (n / 10) hdiv f1 _ hfd,
        ih (n / 10) hdiv f1 [Char.ofNat (48 + n % 10)] hfd, List.append_assoc]
      rfl

theorem natDigits_lt10 (n : Nat) (h : n < 10) :
    natDigits n = [Char.ofNat (48 + n)] := by
  have : n % 10 = n := Nat.mod_eq_of_lt h
  simp [natDigits, natDigitsAux, h, this]

theorem natDigits_ge10 (n : Nat) (h : 10 ≤ n) :
    natDigits n = natDigits (n / 10) ++ [Char.ofNat (48 + n % 10)] := by
  have hdiv : n / 10 < 10 ^ (n - 1 + 1) := by
    rw [Nat.div_lt_iff_lt_mul (by omega)]
    calc n < 10 ^ (n + 1) := adequate_fuel n
    _ ≤ 10 ^ (n - 1 + 1) * 10 := by
        rw [← Nat.pow_succ]
        exact Nat.pow_le_pow_right (by norm_num) (by omega)
  have h1 : natDigits n = natDigitsAux (n - 1 + 1) (n / 10) [Char.ofNat (48 + n % 10)] := by
    rw [natDigits]
    have hn : n + 1 = (n - 1 + 1) + 1 := by omega
    rw [hn, natDigitsAux_succ, if_neg (by omega : ¬ n < 10)]
  rw [h1, natDigitsAux_acc (n / 10) (n - 1) _ hdiv,
    ← natDigits_eq_aux (n / 10) (n - 1) hdiv]

theorem digitChar_isDigit (k : Nat) (h : k < 10) :
    (Char.ofNat (48 + k)).isDigit = true := by
  interval_cases k <;> decide

theorem digitChar_toNat (k : Nat) (h : k < 10) :
    (Char.ofNat (48 + k)).toNat = 48 + k := by
  interval_cases k <;> decide

theorem natDigits_all_digit (n : Nat) : ∀ c ∈ natDigits n, c.isDigit = true := by
  induction n using Nat.strong_induction_on with
  | _ n ih =>
    by_cases h : n < 10
    · rw [natDigits_lt10 n h]
      intro c hc
      rw [List.mem_singleton] at hc
      exact hc ▸ digitChar_isDigit n h
    · rw [natDigits_ge10 n (by omega)]
      intro c hc
      rcases List.mem_append.mp hc with h1 | h1
      · exact ih (n / 10) (Nat.div_lt_self (by omega) (by omega)) c h1
      · rw [List.mem_singleton] at h1
        exact h1 ▸ digitChar_isDigit (n % 10) (Nat.mod_lt n (by omega))

theorem natDigits_ne_nil (n : Nat) : natDigits n ≠ [] := by
  by_cases h : n < 10
  · rw [natDigits_lt10 n h]; simp
  · rw [natDigits_ge10 n (by omega)]; simp

theorem rawVal_append_digit (xs : List Char) (c : Char) :
    rawVal (xs ++ [c]) = 10 * rawVal xs + (c.toNat - 48) := by
  simp [rawVal, List.foldl_append]

theorem rawVal_natDigits (n : Nat) : rawVal (natDigits n) = n := by
  induction n using Nat.strong_induction_on with
  | _ n ih =>
    by_cases h : n < 10
    · rw [natDigits_lt10 n h]
      have : (Char.ofNat (48 + n)).toNat = 48 + n := digitChar_toNat n h
      simp [rawVal, this]
    · rw [natDigits_ge10 n (by omega), rawVal_append_digit,
        ih (n / 10) (Nat.div_lt_self (by omega) (by omega)),
        digitChar_toNat (n % 10) (Nat.mod_lt n (by omega))]
      omega

theorem isDigit_not_special {c : Char} (h : c.isDigit = true) :
    c ≠ '_' ∧ c ≠ '+' ∧ c ≠ '-' ∧ c ≠ '=' ∧ c ≠ '&' ∧ c ≠ '\r' ∧ c ≠ '\n' ∧
      isPyWS c = false := by
  refine ⟨?_, ?_, ?_, ?_, ?_, ?_, ?_, ?_⟩
  · rintro rfl; exact absurd h (by decide)
  · rintro rfl; exact absurd h (by decide)
  · rintro rfl; exact absurd h (by decide)
  · rintro rfl; exact absurd h (by decide)
  · rintro rfl; exact absurd h (by decide)
  · rintro rfl; exact absurd h (by decide)
  · rintro rfl; exact absurd h (by decide)
  · cases hw : isPyWS c with
    | false => rfl
    | true =>
      exfalso
      simp only [isPyWS, Bool.or_eq_true, decide_eq_true_eq] at hw
      rcases hw with ((((rfl | rfl) | rfl) | rfl) | rfl) | rfl <;>
        exact absurd h (by decide)

theorem digitsTail_of_all : ∀ cs : List Char, (∀ c ∈ cs, c.isDigit = true) →
    digitsTail cs = true
  | [], _ => rfl
  | [c], h => by
    have hc : c.isDigit = true := h c (by simp)
    simp [digitsTail, hc, (isDigit_not_special hc).1]
  | c :: d :: cs, h => by
    have hc : c.isDigit = true := h c (by simp)
    have hd : d.isDigit = true := h d (by simp)
    have ih := digitsTail_of_all (d :: cs) fun e he => h e (List.mem_cons_of_mem c he)
    simp [digitsTail, (isDigit_not_special hc).1, hc, ih]

theorem digitsOk_of_all (c : Char) (cs : List Char)
    (h : ∀ d ∈ c :: cs, d.isDigit = true) : digitsOk (c :: cs) = true := by
  rw [digitsOk]
  simp [h c (List.mem_cons_self c cs),
    digitsTail_of_all cs fun d hd => h d (List.mem_cons_of_mem c hd)]

theorem dropWhile_of_all_neg {α : Type} (p : α → Bool) (l : List α)
    (h : ∀ a ∈ l, p a = false) : l.dropWhile p = l := by
  cases l with
  | nil => rfl
  | cons a l => rw [List.dropWhile_cons, h a (List.mem_cons_self a l)]; simp

theorem stripWS_of_all (cs : List Char) (h : ∀ c ∈ cs, isPyWS c = false) :
    stripWS cs = cs := by
  rw [stripWS, dropWhile_of_all_neg isPyWS cs h,
    dropWhile_of_all_neg isPyWS cs.reverse (fun c hc => h c (List.mem_reverse.mp hc)),
    List.reverse_reverse]

theorem digitsVal_eq_rawVal (cs : List Char) (h : ∀ c ∈ cs, c.isDigit = true) :
    digitsVal cs = rawVal cs := by
  rw [digitsVal, rawVal, List.filter_eq_self.mpr]
  intro c hc
  simp [(isDigit_not_special (h c hc)).1]

theorem pyInt_natDigits (n : Nat) : pyInt (natDigits n) = some (n : Int) := by
  rw [pyInt, stripWS_of_all (natDigits n)
    (fun c hc => (isDigit_not_special (natDigits_all_digit n c hc)).2.2.2.2.2.2.2)]
  obtain ⟨c, rest, hcr⟩ := List.exists_cons_of_ne_nil (natDigits_ne_nil n)
  have hall : ∀ d ∈ c :: rest, d.isDigit = true := by
    rw [← hcr]; exact natDigits_all_digit n
  have hc : c.isDigit = true := hall c (List.mem_cons_self c rest)
  rw [hcr, pyIntCore, if_neg (isDigit_not_special hc).2.1,
    if_neg (isDigit_not_special hc).2.2.1, if_pos (digitsOk_of_all c rest hall),
    digitsVal_eq_rawVal (c :: rest) hall, ← hcr, rawVal_natDigits]

theorem pyStrInt_natCast (n : Nat) : pyStrInt (n : Int) = pyStrNat n := by
  rw [pyStrInt, if_neg (by omega : ¬ ((n : Int) < 0)), pyStrNat, Int.toNat_natCast]

theorem data_asString (l : List Char) : (List.asString l).data = l := rfl

theorem asString_ne_empty (l : List Char) (h : l ≠ []) : List.asString l ≠ "" := by
  intro he
  exact h (by simpa [data_asString] using congrArg String.data he)

/-! ### Lemmas about `statusLoop` -/

theorem isPrefixOf_append (xs ys : List Char) : xs.isPrefixOf (xs ++ ys) = true := by
  induction xs with
  | nil => simp [List.isPrefixOf]
  | cons x xs ih => simp [List.isPrefixOf, ih]

theorem statusLoop_append (l1 l2 : List (List Char)) (c : Int) (r : Option (List Char)) :
    statusLoop (l1 ++ l2) c r =
      statusLoop l2 (statusLoop l1 c r).1 (statusLoop l1 c r).2 := by
  induction l1 generalizing c r with
  | nil => rfl
  | cons p l1 ih =>
    simp only [List.cons_append, statusLoop]
    by_cases h1 : ("code=".data.isPrefixOf p) = true
    · cases hpi : pyInt (fieldValue p) with
      | some n => simp [h1, hpi, ih]
      | none => simp [h1, hpi, ih]
    · by_cases h2 : ("redirect=".data.isPrefixOf p) = true
      · simp [h1, h2, ih]
      · simp [h1, h2, ih]

theorem statusLoop_fst_of_no_code (l : List (List Char)) (c : Int) (r : Option (List Char))
    (h : ∀ p ∈ l, ("code=".data.isPrefixOf p) = false) : (statusLoop l c r).1 = c := by
  induction l generalizing r with
  | nil => rfl
  | cons p l ih =>
    have h1 : ("code=".data.isPrefixOf p) = false := h p (List.mem_cons_self p l)
    have hl : ∀ p2 ∈ l, ("code=".data.isPrefixOf p2) = false :=
      fun p2 hp2 => h p2 (List.mem_cons_of_mem p hp2)
    by_cases h2 : ("redirect=".data.isPrefixOf p) = true
    · simp [statusLoop, h1, h2, ih _ hl]
    · simp [statusLoop, h1, h2, ih _ hl]

theorem statusLoop_fst_of_no_valid_code (l : List (List Char)) (c : Int)
    (r : Option (List Char))
    (h : ∀ p ∈ l, ("code=".data.isPrefixOf p) = true →
      pyInt (fieldValue p) = none) :
    (statusLoop l c r).1 = c := by
  induction l generalizing r with
  | nil => rfl
  | cons p l ih =>
    have hl : ∀ p2 ∈ l, ("code=".data.isPrefixOf p2) = true →
        pyInt (fieldValue p2) = none :=
      fun p2 hp2 => h p2 (List.mem_cons_of_mem p hp2)
    by_cases h1 : ("code=".data.isPrefixOf p) = true
    · simp [statusLoop, h1, h p (List.mem_cons_self p l) h1, ih _ hl]
    · by_cases h2 : ("redirect=".data.isPrefixOf p) = true
      · simp [statusLoop, h1, h2, ih _ hl]
      · simp [statusLoop, h1, h2, ih _ hl]

theorem natDigits_no_eq_sign (n : Nat) : '=' ∉ natDigits n := fun hm =>
  (isDigit_not_special (natDigits_all_digit n '=' hm)).2.2.2.1 rfl

/-- The value `status.py` extracts from a `code=` field whose remainder is a
canonical decimal numeral. -/
theorem code_field_value (n : Nat) :
    pyInt (fieldValue ("code=".data ++ natDigits n)) = some (n : Int) := by
  have h1 : ("code=".data ++ natDigits n : List Char) = "code".data ++ '=' :: natDigits n := by
    rw [show ("code=".data : List Char) = "code".data ++ ['='] from rfl, List.append_assoc]
    rfl
  rw [h1, fieldValue, pySplit_append_sep '=' "code".data (natDigits n) (by decide),
    pySplit_of_not_mem '=' (natDigits n) (natDigits_no_eq_sign n)]
  simpa [List.getD] using pyInt_natDigits n

/-- Processing a well-formed `code=` field sets the status code to its
numeric value. -/
theorem statusLoop_cons_code (n : Nat) (l : List (List Char)) (c : Int)
    (r : Option (List Char)) :
    statusLoop (("code=".data ++ natDigits n) :: l) c r = statusLoop l (n : Int) r := by
  rw [statusLoop, isPrefixOf_append, code_field_value n]
  simp

/-! ### Claim theorems: status codes -/

/-- C2: for every query string containing a (unique) `code=N` parameter
with `N` a decimal integer, `status.py` emits as its first output line
`Status: N P`, reproducing `N` exactly, where `P` is the table phrase for
`N` or `Unknown` when `N` is not one of the nine tabulated codes; the code
is never rejected for being non-standard. -/
theorem c2_status_code_passthrough (q : String) (n : Nat) (l1 l2 : List (List Char))
    (hsplit : pySplit '&' q.data = l1 ++ ("code=".data ++ natDigits n) :: l2)
    (hother : ∀ p ∈ l1 ++ l2, ("code=".data.isPrefixOf p) = false) :
    (statusOutput q).headD "" =
      "Status: " ++ pyStrNat n ++ " " ++ statusPhrase (n : Int) ++ "\r"
    ∧ ((n : Int) ∉ ([200, 201, 204, 301, 302, 400, 403, 404, 500] : List Int) →
        statusPhrase (n : Int) = "Unknown") := by
  have hl1 : ∀ p ∈ l1, ("code=".data.isPrefixOf p) = false :=
    fun p hp => hother p (List.mem_append_left _ hp)
  have hl2 : ∀ p ∈ l2, ("code=".data.isPrefixOf p) = false :=
    fun p hp => hother p (List.mem_append_right _ hp)
  have hcode : (statusParsed q).1 = (n : Int) := by
    rw [statusParsed, hsplit, statusLoop_append, statusLoop_cons_code]
    exact statusLoop_fst_of_no_code l2 _ _ hl2
  refine ⟨?_, ?_⟩
  · have h2 : (statusOutput q).headD "" =
        "Status: " ++ pyStrInt (statusParsed q).1 ++ " "
          ++ statusPhrase (statusParsed q).1 ++ "\r" := by
      simp [statusOutput]
    rw [h2, hcode, pyStrInt_natCast]
  · intro hn
    have h200 : ¬ ((n : Int) = 200) := fun h => hn (by simp [h])
    have h201 : ¬ ((n : Int) = 201) := fun h => hn (by simp [h])
    have h204 : ¬ ((n : Int) = 204) := fun h => hn (by simp [h])
    have h301 : ¬ ((n : Int) = 301) := fun h => hn (by simp [h])
    have h302 : ¬ ((n : Int) = 302) := fun h => hn (by simp [h])
    have h400 : ¬ ((n : Int) = 400) := fun h => hn (by simp [h])
    have h403 : ¬ ((n : Int) = 403) := fun h => hn (by simp [h])
    have h404 : ¬ ((n : Int) = 404) := fun h => hn (by simp [h])
    have h500 : ¬ ((n : Int) = 500) := fun h => hn (by simp [h])
    simp [statusPhrase, phrases, h200, h201, h204, h301, h302, h400, h403, h404, h500]

/-- Witness for C2 at the spec scenario `code=404`. -/
theorem c2_status_code_passthrough_witness :
    (pySplit '&' ("code=404" : String).data =
      [] ++ ("code=".data ++ natDigits 404) :: [])
    ∧ ((statusOutput "code=404").headD "" =
        "Status: " ++ pyStrNat 404 ++ " " ++ statusPhrase ((404 : Nat) : Int) ++ "\r"
      ∧ (((404 : Nat) : Int) ∉ ([200, 201, 204, 301, 302, 400, 403, 404, 500] : List Int) →
          statusPhrase ((404 : Nat) : Int) = "Unknown")) :=
  ⟨by decide, c2_status_code_passthrough "code=404" 404 [] [] (by decide) (by simp)⟩

/-- C8: for every query string whose `code=` fields all carry a value the
script cannot convert to an integer (including the empty value), the status
code stays at its default 200 and the first output line is
`Status: 200 OK`; the script never fails on a malformed code parameter. -/
theorem c8_invalid_code_default_200 (q : String)
    (h : ∀ p ∈ pySplit '&' q.data, ("code=".data.isPrefixOf p) = true →
      pyInt (fieldValue p) = none) :
    (statusOutput q).headD "" = "Status: 200 OK\r" := by
  have hcode : (statusParsed q).1 = 200 :=
    statusLoop_fst_of_no_valid_code (pySplit '&' q.data) 200 none h
  have h2 : (statusOutput q).headD "" =
      "Status: " ++ pyStrInt (statusParsed q).1 ++ " "
        ++ statusPhrase (statusParsed q).1 ++ "\r" := by
    simp [statusOutput]
  rw [h2, hcode]
  decide

/-- Witness for C8 at the query `code=xyz&code=` (a non-numeric and an
empty code value). -/
theorem c8_invalid_code_default_200_witness :
    (∀ p ∈ pySplit '&' ("code=xyz&code=" : String).data,
      ("code=".data.isPrefixOf p) = true → pyInt (fieldValue p) = none)
    ∧ (statusOutput "code=xyz&code=").headD "" = "Status: 200 OK\r" :=
  ⟨by decide, c8_invalid_code_default_200 "code=xyz&code=" (by decide)⟩

/-- C5: for the query `code=302&redirect=/new-page`, the status line is
`Status: 302 Found`, a `Location: /new-page` header is present, and the
body contains the anchor link to `/new-page`. -/
theorem c5_redirect_scenario :
    (statusOutput "code=302&redirect=/new-page").headD "" = "Status: 302 Found\r"
    ∧ ("Location: /new-page\r") ∈ statusOutput "code=302&redirect=/new-page"
    ∧ ("<p>Redirect to: <a href=" ++ sq ++ "/new-page" ++ sq ++ ">/new-page</a></p>")
        ∈ statusOutput "code=302&redirect=/new-page" := by
  decide

theorem code_key_not_prefix_redirect (X : List Char) :
    ("code=".data.isPrefixOf ("redirect=".data ++ X)) = false := by
  rw [show ("redirect=".data ++ X : List Char) = 'r' :: ("edirect=".data ++ X) from rfl,
    show ("code=".data : List Char) = 'c' :: "ode=".data from rfl]
  simp [List.isPrefixOf]

/-- C6: the manual query parsing drops the part of a value after an
embedded `=`: a `redirect=` value of the form `a=b` yields `Location: a`.
A `&` inside a value terminates it, and malformed pairs are silently
discarded (shown for `status.py`; the same `split('=')[1]` dropping holds
for the `sleep=` parameter of `slow.py`). -/
theorem c6_manual_parsing_drops_values (a b : List Char)
    (ha1 : '=' ∉ a) (ha2 : '&' ∉ a) (hb : '&' ∉ b) (hne : a ≠ []) :
    (statusParsed (List.asString ("redirect=".data ++ (a ++ '=' :: b))) = (200, some a)
      ∧ ("Location: " ++ a.asString ++ "\r")
          ∈ statusOutput (List.asString ("redirect=".data ++ (a ++ '=' :: b))))
    ∧ statusParsed "redirect=/a&b=c" = (200, some "/a".data)
    ∧ statusParsed "foo&=x&code" = (200, none)
    ∧ sleepTimeOf "sleep=3=9" = 3 := by
  have hamp : '&' ∉ ("redirect=".data ++ (a ++ '=' :: b) : List Char) := by
    intro hm
    rcases List.mem_append.mp hm with h1 | h1
    · exact absurd h1 (by decide)
    · rcases List.mem_append.mp h1 with h2 | h2
      · exact ha2 h2
      · rcases List.mem_cons.mp h2 with h3 | h3
        · exact absurd h3 (by decide)
        · exact hb h3
  have hfv : fieldValue ("redirect=".data ++ (a ++ '=' :: b)) = a := by
    rw [fieldValue,
      show ("redirect=".data ++ (a ++ '=' :: b) : List Char) =
        "redirect".data ++ '=' :: (a ++ '=' :: b) by
          rw [show ("redirect=".data : List Char) = "redirect".data ++ ['='] from rfl,
            List.append_assoc]
          rfl,
      pySplit_append_sep '=' "redirect".data _ (by decide),
      pySplit_append_sep '=' a b ha1]
    simp [List.getD]
  have hp : statusParsed (List.asString ("redirect=".data ++ (a ++ '=' :: b))) =
      (200, some a) := by
    rw [statusParsed, data_asString, pySplit_of_not_mem '&' _ hamp, statusLoop,
      code_key_not_prefix_redirect, isPrefixOf_append, hfv]
    simp [statusLoop]
  refine ⟨⟨hp, ?_⟩, by decide, by decide, by decide⟩
  simp only [statusOutput, hp]
  simp [redirTruthy, hne]

/-- Witness for C6 with value `/new=page` (an embedded `=`): the emitted
location is the prefix `/new`. -/
theorem c6_manual_parsing_drops_values_witness :
    ('=' ∉ ("/new".data : List Char) ∧ '&' ∉ ("/new".data : List Char)
      ∧ '&' ∉ ("page".data : List Char) ∧ ("/new".data : List Char) ≠ [])
    ∧ statusParsed (List.asString ("redirect=".data ++ ("/new".data ++ '=' :: "page".data)))
        = (200, some "/new".data) := by
  refine ⟨by decide, ?_⟩
  exact (c6_manual_parsing_drops_values "/new".data "page".data
    (by decide) (by decide) (by decide) (by decide)).1.1

/-! ### Claim theorems: slow.py, supervisor, slow client -/

/-- C9: `slow.py` writes nothing before its sleep completes: the event
trace has no output before the `time.sleep` call, and the output produced
by any time strictly before the sleep duration is empty. -/
theorem c9_no_output_before_sleep (q : String) (t : Int) (h : t < sleepTimeOf q) :
    (slowEvents q).takeWhile (fun e => !e.isSleep) = []
    ∧ slowEvents q = SlowEvent.sleep (sleepTimeOf q) :: (slowOutput q).map SlowEvent.out
    ∧ slowOutputBefore q t = [] := by
  refine ⟨rfl, rfl, ?_⟩
  rw [slowOutputBefore, if_neg (not_le.mpr h)]

/-- Witness for C9: terminated 3 seconds into a 5-second sleep, nothing
has been printed. -/
theorem c9_no_output_before_sleep_witness :
    ((3 : Int) < sleepTimeOf "sleep=5")
    ∧ ((slowEvents "sleep=5").takeWhile (fun e => !e.isSleep) = []
      ∧ slowEvents "sleep=5" =
          SlowEvent.sleep (sleepTimeOf "sleep=5") :: (slowOutput "sleep=5").map SlowEvent.out
      ∧ slowOutputBefore "sleep=5" 3 = []) :=
  ⟨by decide, c9_no_output_before_sleep "sleep=5" 3 (by decide)⟩

/-- C1: when the sleep duration of `slow.py` exceeds the deadline, the
supervised invocation times out: the child is no longer running, the
caller substitutes a 504 response with no body, and the killed process had
produced no partial output by the deadline. -/
theorem c1_timeout_gateway (q : String) (deadline : Int)
    (h : deadline < sleepTimeOf q) :
    supervise deadline (slowRun q) = (GatewayOutcome.timedOut, false)
    ∧ callerResponse GatewayOutcome.timedOut = (504, [])
    ∧ slowOutputBefore q deadline = [] := by
  refine ⟨?_, rfl, ?_⟩
  · rw [supervise, if_pos]
    exact h
  · rw [slowOutputBefore, if_neg (not_le.mpr h)]

/-- Witness for C1 at the spec scenario: 5-second sleep under a 2-second
deadline. -/
theorem c1_timeout_gateway_witness :
    ((2 : Int) < sleepTimeOf "sleep=5")
    ∧ (supervise 2 (slowRun "sleep=5") = (GatewayOutcome.timedOut, false)
      ∧ callerResponse GatewayOutcome.timedOut = (504, [])
      ∧ slowOutputBefore "sleep=5" 2 = []) :=
  ⟨by decide, c1_timeout_gateway "sleep=5" 2 (by decide)⟩

theorem clientLoop_run (post : List (List Nat)) :
    ∀ pre (total sleeps : Nat), (∀ c ∈ pre, c ≠ []) →
      clientLoop (pre ++ [] :: post) total sleeps =
        (total + (pre.map List.length).sum, sleeps + pre.length) := by
  intro pre
  induction pre with
  | nil => intro t s _; simp [clientLoop]
  | cons c pre ih =>
    intro t s h
    have hc : c ≠ [] := h c (List.mem_cons_self c pre)
    rw [List.cons_append, clientLoop, if_neg hc,
      ih _ _ fun d hd => h d (List.mem_cons_of_mem c hd)]
    simp
    omega

/-- C7: the slow-consumer client requests `recv(1024)` with a 50 ms sleep
after every nonempty chunk, stops at the first empty read, and its final
`total_bytes` is the sum of the lengths of all chunks received. -/
theorem c7_slow_client_totals (pre post : List (List Nat))
    (h : ∀ c ∈ pre, c ≠ []) :
    clientRun (pre ++ [] :: post) = ((pre.map List.length).sum, pre.length)
    ∧ clientRecvSize = 1024 ∧ clientSleepMs = 50 := by
  refine ⟨?_, rfl, rfl⟩
  rw [clientRun, clientLoop_run post pre 0 0 h]
  simp

/-- Witness for C7 with two nonempty chunks before the close. -/
theorem c7_slow_client_totals_witness :
    (∀ c ∈ ([[1, 2], [3]] : List (List Nat)), c ≠ [])
    ∧ (clientRun ([[1, 2], [3]] ++ [] :: [[9]]) =
        ((([[1, 2], [3]] : List (List Nat)).map List.length).sum, 2)
      ∧ clientRecvSize = 1024 ∧ clientSleepMs = 50) :=
  ⟨by decide, c7_slow_client_totals [[1, 2], [3]] [[9]] (by decide)⟩

/-! ### Claim theorems: test.py -/

theorem pyStrNat_ne_empty (n : Nat) : pyStrNat n ≠ "" :=
  asString_ne_empty _ (natDigits_ne_nil n)

/-- C3: a POST with `CONTENT_LENGTH` equal to a decimal integer `n` and at
least `n` characters available on standard input makes `test.py` read
exactly `n` characters and echo them after the line reporting `n` bytes
received. -/
theorem c3_post_body_echo (env : String → Option String) (s : List Char) (n : Nat)
    (hm : env "REQUEST_METHOD" = some "POST")
    (hcl : env "CONTENT_LENGTH" = some (pyStrNat n))
    (hn : n ≤ s.length) :
    (s.take n).length = n
    ∧ ∃ pre post, testOutput env (Except.ok s) =
        pre ++ ("<p>Received " ++ pyStrNat n ++ " bytes:</p>")
          :: ("<pre>" ++ (s.take n).asString ++ "</pre>") :: post := by
  have hlen : (s.take n).length = n := by
    rw [List.length_take]
    omega
  refine ⟨hlen, ?_⟩
  have hps : postSection env (Except.ok s) =
      [("<p>Received " ++ pyStrNat n ++ " bytes:</p>"),
       ("<pre>" ++ (s.take n).asString ++ "</pre>")] := by
    simp only [postSection, pyGet, hm, hcl, Option.getD_some]
    rw [if_pos ⟨trivial, pyStrNat_ne_empty n⟩,
      show ((pyStrNat n).data : List Char) = natDigits n from rfl, pyInt_natDigits]
    simp [show ¬ ((n : Int) < 0) from by omega, Int.toNat_natCast, hlen]
  refine ⟨["Content-Type: text/html\r", "\r", "<!DOCTYPE html>", "<html>",
    "<head><title>CGI Test</title></head>", "<body>",
    "<h1>CGI Test Script - Python</h1>",
    "<p>If you see this, CGI execution is working!</p>",
    "<h2>Environment Variables</h2>",
    "<table border=" ++ sq ++ "1" ++ sq ++ ">",
    "<tr><th>Variable</th><th>Value</th></tr>"]
    ++ cgiVars.map (envRow env)
    ++ ["</table>", "<h2>Query String Parameters</h2>"]
    ++ querySection (pyGet env "QUERY_STRING" "")
    ++ ["<h2>POST Body</h2>"], ["</body>", "</html>"], ?_⟩
  rw [testOutput, hps]
  simp

/-- Witness for C3 at the spec scenario: `Content-Length: 11` and body
`hello world`. -/
theorem c3_post_body_echo_witness :
    ((fun k => if k = "REQUEST_METHOD" then some "POST"
        else if k = "CONTENT_LENGTH" then some "11" else none) "REQUEST_METHOD"
          = some "POST"
      ∧ (fun k => if k = "REQUEST_METHOD" then some "POST"
          else if k = "CONTENT_LENGTH" then some "11" else none) "CONTENT_LENGTH"
            = some (pyStrNat 11)
      ∧ 11 ≤ ("hello world".data : List Char).length)
    ∧ (("hello world".data.take 11).length = 11
      ∧ ∃ pre post, testOutput
          (fun k => if k = "REQUEST_METHOD" then some "POST"
            else if k = "CONTENT_LENGTH" then some "11" else none)
          (Except.ok "hello world".data) =
        pre ++ ("<p>Received " ++ pyStrNat 11 ++ " bytes:</p>")
          :: ("<pre>" ++ ("hello world".data.take 11).asString ++ "</pre>") :: post) :=
  ⟨⟨by decide, by decide, by decide⟩,
    c3_post_body_echo
      (fun k => if k = "REQUEST_METHOD" then some "POST"
        else if k = "CONTENT_LENGTH" then some "11" else none)
      "hello world".data 11 (by decide) (by decide) (by decide)⟩

/-- C10: a POST whose `CONTENT_LENGTH` is set but not a valid integer, or
whose body read raises, is caught: the full header block is still emitted,
the error is reported as a paragraph inside the body, and the closing HTML
tags follow. -/
theorem c10_post_body_error_handled (env : String → Option String)
    (stdin : Except String (List Char)) (cl : String)
    (hm : env "REQUEST_METHOD" = some "POST")
    (hcl : env "CONTENT_LENGTH" = some cl) (hne : cl ≠ "")
    (hfail : pyInt cl.data = none ∨ ∃ e, stdin = Except.error e) :
    ∃ mid msg, testOutput env stdin =
      "Content-Type: text/html\r" :: "\r" ::
        (mid ++ ["<p>Error reading body: " ++ msg ++ "</p>", "</body>", "</html>"]) := by
  have hps : ∃ msg, postSection env stdin =
      ["<p>Error reading body: " ++ msg ++ "</p>"] := by
    rcases hfail with hf | ⟨e, he⟩
    · refine ⟨intErrMsg cl, ?_⟩
      simp only [postSection, pyGet, hm, hcl, Option.getD_some]
      rw [if_pos ⟨trivial, hne⟩, hf]
    · cases hpi : pyInt cl.data with
      | none =>
        refine ⟨intErrMsg cl, ?_⟩
        simp only [postSection, pyGet, hm, hcl, Option.getD_some]
        rw [if_pos ⟨trivial, hne⟩, hpi]
      | some l =>
        refine ⟨e, ?_⟩
        simp only [postSection, pyGet, hm, hcl, Option.getD_some]
        rw [if_pos ⟨trivial, hne⟩, hpi, he]
  obtain ⟨msg, hps⟩ := hps
  refine ⟨["<!DOCTYPE html>", "<html>", "<head><title>CGI Test</title></head>", "<body>",
    "<h1>CGI Test Script - Python</h1>",
    "<p>If you see this, CGI execution is working!</p>",
    "<h2>Environment Variables</h2>",
    "<table border=" ++ sq ++ "1" ++ sq ++ ">",
    "<tr><th>Variable</th><th>Value</th></tr>"]
    ++ cgiVars.map (envRow env)
    ++ ["</table>", "<h2>Query String Parameters</h2>"]
    ++ querySection (pyGet env "QUERY_STRING" "")
    ++ ["<h2>POST Body</h2>"], msg, ?_⟩
  rw [testOutput, hps]
  simp

/-- Witness for C10 with the non-numeric `CONTENT_LENGTH` value `abc`. -/
theorem c10_post_body_error_handled_witness :
    ((fun k => if k = "REQUEST_METHOD" then some "POST"
        else if k = "CONTENT_LENGTH" then some "abc" else none) "REQUEST_METHOD"
          = some "POST"
      ∧ ("abc" : String) ≠ ""
      ∧ (pyInt ("abc" : String).data = none ∨
          ∃ e, (Except.ok "hi".data : Except String (List Char)) = Except.error e))
    ∧ ∃ mid msg, testOutput
        (fun k => if k = "REQUEST_METHOD" then some "POST"
          else if k = "CONTENT_LENGTH" then some "abc" else none)
        (Except.ok "hi".data) =
      "Content-Type: text/html\r" :: "\r" ::
        (mid ++ ["<p>Error reading body: " ++ msg ++ "</p>", "</body>", "</html>"]) :=
  ⟨⟨by decide, by decide, Or.inl (by decide)⟩,
    c10_post_body_error_handled
      (fun k => if k = "REQUEST_METHOD" then some "POST"
        else if k = "CONTENT_LENGTH" then some "abc" else none)
      (Except.ok "hi".data) "abc" (by decide) (by decide) (by decide)
      (Or.inl (by decide))⟩

/-! ### Claim theorems: CGI output framing -/

theorem data_append (s t : String) : (s ++ t).data = s.data ++ t.data := rfl

theorem string_eq_of_data (s t : String) (h : s.data = t.data) : s = t := by
  cases s with
  | mk d1 =>
    cases t with
    | mk d2 => exact congrArg String.mk (by simpa using h)

theorem natDigits_noCRLF (n : Nat) :
    ∀ ch ∈ natDigits n, ch ≠ '\r' ∧ ch ≠ '\n' := fun ch hch =>
  ⟨(isDigit_not_special (natDigits_all_digit n ch hch)).2.2.2.2.2.1,
   (isDigit_not_special (natDigits_all_digit n ch hch)).2.2.2.2.2.2.1⟩

theorem pyStrInt_noCRLF (i : Int) :
    ∀ ch ∈ (pyStrInt i).data, ch ≠ '\r' ∧ ch ≠ '\n' := by
  intro ch hch
  rw [pyStrInt] at hch
  by_cases h : i < 0
  · rw [if_pos h, data_append] at hch
    rcases List.mem_append.mp hch with h1 | h1
    · rcases List.mem_singleton.mp h1 with rfl
      exact ⟨by decide, by decide⟩
    · exact natDigits_noCRLF _ ch h1
  · rw [if_neg h] at hch
    exact natDigits_noCRLF _ ch hch

theorem statusPhrase_noCRLF (c : Int) :
    ∀ ch ∈ (statusPhrase c).data, ch ≠ '\r' ∧ ch ≠ '\n' := by
  rw [statusPhrase, phrases]
  split_ifs <;> decide

theorem isHeaderLine_not_blank (l : String) (h : isHeaderLine l) :
    l ≠ "" ∧ l ≠ "\r" := by
  obtain ⟨nm, v, heq, hnm, -, -⟩ := h
  have hd : l.data = nm.data ++ ": ".data ++ v.data ++ "\r".data := by
    rw [heq]
    simp [data_append]
  have hnm2 : nm.data ≠ [] := fun h0 => hnm (string_eq_of_data nm "" h0)
  obtain ⟨c, cs, hc⟩ := List.exists_cons_of_ne_nil hnm2
  rw [hc] at hd
  constructor
  · intro he
    rw [he] at hd
    simp at hd
  · intro he
    rw [he] at hd
    have hlen := congrArg List.length hd
    simp at hlen

theorem content_type_header_line : isHeaderLine "Content-Type: text/html\r" := by
  refine ⟨"Content-Type", "text/html", ?_, by decide, by decide, by decide⟩
  decide

theorem statusLoop_redirect_chars (S : List Char) :
    ∀ (l : List (List Char)) (c : Int) (r : Option (List Char)),
      (∀ p ∈ l, ∀ ch ∈ p, ch ∈ S) →
      (∀ v, r = some v → ∀ ch ∈ v, ch ∈ S) →
      ∀ v, (statusLoop l c r).2 = some v → ∀ ch ∈ v, ch ∈ S := by
  intro l
  induction l with
  | nil =>
    intro c r _ hr v hv
    exact hr v hv
  | cons p ps ih =>
    intro c r hl hr v hv
    have hps : ∀ p2 ∈ ps, ∀ ch ∈ p2, ch ∈ S :=
      fun p2 hp2 => hl p2 (List.mem_cons_of_mem p hp2)
    have hfv : ∀ ch ∈ fieldValue p, ch ∈ S := by
      intro ch hch
      obtain ⟨part, hpart, hchp⟩ := getD_subset (pySplit '=' p) 1 ch hch
      exact hl p (List.mem_cons_self p ps) ch (pySplit_subset '=' p part hpart ch hchp)
    by_cases h1 : ("code=".data.isPrefixOf p) = true
    · rw [statusLoop, if_pos h1] at hv
      cases hpi : pyInt (fieldValue p) with
      | some m =>
        rw [hpi] at hv
        exact ih m r hps hr v hv
      | none =>
        rw [hpi] at hv
        exact ih c r hps hr v hv
    · by_cases h2 : ("redirect=".data.isPrefixOf p) = true
      · rw [statusLoop, if_neg h1, if_pos h2] at hv
        refine ih c (some (fieldValue p)) hps ?_ v hv
        intro v2 hv2
        rw [Option.some.injEq] at hv2
        exact hv2 ▸ hfv
      · rw [statusLoop, if_neg h1, if_neg h2] at hv
        exact ih c r hps hr v hv

theorem statusParsed_redirect_chars (q : String) :
    ∀ v, (statusParsed q).2 = some v → ∀ ch ∈ v, ch ∈ q.data :=
  statusLoop_redirect_chars q.data (pySplit '&' q.data) 200 none
    (pySplit_subset '&' q.data) (by simp)

theorem statusOutput_decomp (q : String) :
    statusOutput q = statusHeaders q ++ "\r" :: statusBody q := by
  simp [statusOutput, statusHeaders, statusBody, List.append_assoc]

theorem statusHeaders_header_lines (q : String) (hq : noCRLF q) :
    ∀ l ∈ statusHeaders q, isHeaderLine l := by
  intro l hl
  have hstatus : isHeaderLine ("Status: " ++ pyStrInt (statusParsed q).1 ++ " "
      ++ statusPhrase (statusParsed q).1 ++ "\r") := by
    refine ⟨"Status", pyStrInt (statusParsed q).1 ++ " " ++ statusPhrase (statusParsed q).1,
      ?_, by decide, by decide, ?_⟩
    · apply string_eq_of_data
      simp [data_append]
    · intro ch hch
      rw [data_append, data_append] at hch
      rcases List.mem_append.mp hch with h1 | h1
      · rcases List.mem_append.mp h1 with h2 | h2
        · exact pyStrInt_noCRLF _ ch h2
        · rcases List.mem_singleton.mp h2 with rfl
          exact ⟨by decide, by decide⟩
      · exact statusPhrase_noCRLF _ ch h1
  cases hr : (statusParsed q).2 with
  | none =>
    have hform : statusHeaders q =
        ["Status: " ++ pyStrInt (statusParsed q).1 ++ " "
            ++ statusPhrase (statusParsed q).1 ++ "\r",
         "Content-Type: text/html\r"] := by
      simp [statusHeaders, hr, redirTruthy]
    rw [hform] at hl
    simp only [List.mem_cons, List.not_mem_nil, or_false] at hl
    rcases hl with rfl | rfl
    · exact hstatus
    · exact content_type_header_line
  | some v =>
    by_cases hv : v = []
    · have hform : statusHeaders q =
          ["Status: " ++ pyStrInt (statusParsed q).1 ++ " "
              ++ statusPhrase (statusParsed q).1 ++ "\r",
           "Content-Type: text/html\r"] := by
        simp [statusHeaders, hr, redirTruthy, hv]
      rw [hform] at hl
      simp only [List.mem_cons, List.not_mem_nil, or_false] at hl
      rcases hl with rfl | rfl
      · exact hstatus
      · exact content_type_header_line
    · have hform : statusHeaders q =
          ["Status: " ++ pyStrInt (statusParsed q).1 ++ " "
              ++ statusPhrase (statusParsed q).1 ++ "\r",
           "Location: " ++ v.asString ++ "\r",
           "Content-Type: text/html\r"] := by
        simp [statusHeaders, hr, redirTruthy, hv]
      rw [hform] at hl
      simp only [List.mem_cons, List.not_mem_nil, or_false] at hl
      rcases hl with rfl | rfl | rfl
      · exact hstatus
      · refine ⟨"Location", v.asString, ?_, by decide, by decide, ?_⟩
        · apply string_eq_of_data
          simp [data_append]
        · intro ch hch
          rw [data_asString] at hch
          exact hq ch (statusParsed_redirect_chars q v hr ch hch)
      · exact content_type_header_line

/-- C4: the output of `status.py` and of `test.py` is a header block of
`Name: value` lines (each followed by a carriage return; `print` adds the
newline), then exactly one blank line, then the body; no body line precedes
the blank-line delimiter. -/
theorem c4_output_framing (q : String) (env : String → Option String)
    (stdin : Except String (List Char)) (hq : noCRLF q) :
    (∃ hdrs sbody, statusOutput q = hdrs ++ "\r" :: sbody
      ∧ (∀ l ∈ hdrs, isHeaderLine l) ∧ (∀ l ∈ hdrs, l ≠ "" ∧ l ≠ "\r"))
    ∧ (∃ tbody, testOutput env stdin = "Content-Type: text/html\r" :: "\r" :: tbody
      ∧ isHeaderLine "Content-Type: text/html\r") := by
  constructor
  · exact ⟨statusHeaders q, statusBody q, statusOutput_decomp q,
      statusHeaders_header_lines q hq,
      fun l hl => isHeaderLine_not_blank l (statusHeaders_header_lines q hq l hl)⟩
  · exact ⟨_, rfl, content_type_header_line⟩

/-- Witness for C4 at the query `code=404` and an empty environment. -/
theorem c4_output_framing_witness :
    noCRLF "code=404"
    ∧ ((∃ hdrs sbody, statusOutput "code=404" = hdrs ++ "\r" :: sbody
        ∧ (∀ l ∈ hdrs, isHeaderLine l) ∧ (∀ l ∈ hdrs, l ≠ "" ∧ l ≠ "\r"))
      ∧ (∃ tbody, testOutput (fun _ => none) (Except.ok []) =
            "Content-Type: text/html\r" :: "\r" :: tbody
          ∧ isHeaderLine "Content-Type: text/html\r")) :=
  ⟨by unfold noCRLF; decide,
    c4_output_framing "code=404" (fun _ => none) (Except.ok []) (by unfold noCRLF; decide)⟩

end Webserv
